import Mathlib

/-!
Shallow embedding of `src/server.js` (school-attendance-backend).

The server keeps an in-memory ExcelJS workbook with one "Attendance"
worksheet and rewrites the whole file on every append; we model the
ledger as the ordered list of data rows in memory (`mem`) plus the
durable copy on disk (`disk`, `none` meaning the file does not exist).
JavaScript values that may be `undefined` are modelled as `Option`.
Strings handled only opaquely (keys, record fields) are Lean `String`;
voice filenames, which the code parses character by character, are
modelled as `List Char` (`JSStr`).
-/

/-- One data row of the "Attendance" worksheet (src/server.js lines 71-77).
Fields other than the server-assigned timestamp come from the request and
may be `undefined` in JS, hence `Option`. -/
structure AttendanceRecord where
  timestamp : String
  device_id : Option String
  token : Option String
  pin : Option String
  method : Option String
deriving DecidableEq, Repr

/-- The Ledger Store: in-memory rows plus the durable file
(`none` = `attendance.xlsx` does not exist). -/
structure LedgerState where
  mem : List AttendanceRecord
  disk : Option (List AttendanceRecord)
deriving DecidableEq, Repr

/-- Function `initExcel` (src/server.js lines 36-53): load the file if it exists,
otherwise create an empty table and persist it immediately. -/
def initExcel : Option (List AttendanceRecord) → LedgerState
  | some rs => { mem := rs, disk := some rs }
  | none => { mem := [], disk := some [] }

/-- Endpoint `GET /api/attendance` / Ledger `listAll()` (src/server.js lines 166-180):
all data rows, in insertion order, header excluded. -/
def listAll (st : LedgerState) : List AttendanceRecord := st.mem

/-- Nested `event.extras` object: optional nested `entered_pin`. -/
structure EventExtras where
  entered_pin : Option String
deriving DecidableEq, Repr

/-- One element of the `events` array of the ingest payload. -/
structure DeviceEvent where
  token_or_pin : Option String
  method : Option String
  extras : Option EventExtras
deriving DecidableEq, Repr

/-- The JSON body of `POST /api/device/event`. -/
structure DeviceBody where
  device_id : Option String
  events : List DeviceEvent
deriving DecidableEq, Repr

/-- Outcome of the device-event handler: 200 JSON success, 401 on bad key,
or an uncaught exception (which Express surfaces as a 500). -/
inductive DeviceResult where
  | ok
  | unauthorized
  | thrown (msg : String)
deriving DecidableEq, Repr

/-- HTTP status of each device-event outcome (`thrown` is Express's
default 500 error path). -/
def deviceStatus : DeviceResult → Nat
  | .ok => 200
  | .unauthorized => 401
  | .thrown _ => 500

/-- The row built at src/server.js lines 71-77: server time as timestamp,
`device_id` from the payload, `token`/`method` from the event, and
`pin := event.extras ? event.extras.entered_pin : ""`. -/
def mkRecord (now : String) (device_id : Option String) (e : DeviceEvent) :
    AttendanceRecord :=
  { timestamp := now
    device_id := device_id
    token := e.token_or_pin
    pin := match e.extras with
           | some ex => ex.entered_pin
           | none => some ""
    method := e.method }

/-- Call `sheet.addRow` followed by `workbook.xlsx.writeFile` (lines 71-79):
append in memory, then rewrite the whole table to disk. -/
def ledgerAppend (r : AttendanceRecord) (st : LedgerState) : LedgerState :=
  let mem := st.mem ++ [r]
  { mem := mem, disk := some mem }

/-- Endpoint `POST /api/device/event` (src/server.js lines 60-86).
`apiKey` is `DEVICE_API_KEY` from the environment, `key` the request's
`x-device-key` header (either may be absent). On key mismatch: 401, no
mutation. Otherwise `req.body.events[0]` is read; an empty `events` array
makes `event.token_or_pin` throw a TypeError before any row is added.
Otherwise the row is appended and the table persisted. -/
def deviceEventHandler (apiKey : Option String) (key : Option String)
    (body : DeviceBody) (now : String) (st : LedgerState) :
    LedgerState × DeviceResult :=
  if key ≠ apiKey then (st, .unauthorized)
  else
    match body.events with
    | [] => (st, .thrown "TypeError: Cannot read properties of undefined")
    | e :: _ => (ledgerAppend (mkRecord now body.device_id e) st, .ok)

/-!
Voice subsystem (src/server.js lines 91-161).  Filenames are parsed
character by character, so they are modelled as `List Char`.
-/

/-- JavaScript strings, modelled as their character lists. -/
abbrev JSStr := List Char

/-- JS `v || dflt` for an optionally-present string value: `undefined`
and the empty string are falsy. -/
def jsOr (v : Option JSStr) (dflt : JSStr) : JSStr :=
  match v with
  | some s => if s = [] then dflt else s
  | none => dflt

/-- Decimal rendering of a JS number holding a natural (template
interpolation of `Date.now()` at src/server.js line 103): fuel-driven
most-significant-first digit expansion. -/
def natCharsAux : Nat → Nat → JSStr
  | 0, _ => []
  | _ + 1, 0 => []
  | fuel + 1, n + 1 =>
    natCharsAux fuel ((n + 1) / 10) ++ [Nat.digitChar ((n + 1) % 10)]

/-- Decimal string of a natural number, as JS `${n}` produces it. -/
def natChars (n : Nat) : JSStr :=
  if n = 0 then ['0'] else natCharsAux n n

/-- The multer `storage.filename` callback (src/server.js lines 99-104):
`${req.body.student_id || 'unknown'}_${req.body.type || 'check'}_${Date.now()}.webm`.
Both `student_id` and `type` come from the request body whatever the
endpoint; `timestamp` is the current epoch milliseconds. -/
def storageFilename (student_id : Option JSStr) (ty : Option JSStr)
    (timestamp : Nat) : JSStr :=
  jsOr student_id "unknown".data ++ ['_'] ++ jsOr ty "check".data ++ ['_'] ++
    natChars timestamp ++ ".webm".data

/-- Writing the uploaded blob into the voices directory: the directory is
created if absent (`destination` callback, lines 92-98) and a file of the
same name is silently overwritten. We track the set of filenames. -/
def voiceSave (dir : Option (List JSStr)) (fn : JSStr) : List JSStr :=
  let files := dir.getD []
  if fn ∈ files then files else files ++ [fn]

/-- Middleware `upload.single('audio')`: when an audio file is attached, multer
stores it under the generated name and sets `req.file`; otherwise it
leaves `req.file` undefined and touches nothing. Returns the new
directory state and `req.file`'s filename. -/
def uploadSingle (audio : Bool) (student_id ty : Option JSStr) (now : Nat)
    (dir : Option (List JSStr)) : Option (List JSStr) × Option JSStr :=
  if audio then
    let fn := storageFilename student_id ty now
    (some (voiceSave dir fn), some fn)
  else (dir, none)

/-- Outcome of a voice upload endpoint: 200 JSON success carrying the
stored filename, or an uncaught exception (Express default 500). -/
inductive VoiceResult where
  | ok (message : String) (file : JSStr)
  | thrown (msg : String)
deriving DecidableEq, Repr

/-- HTTP status of each voice-upload outcome. -/
def voiceStatus : VoiceResult → Nat
  | .ok _ _ => 200
  | .thrown _ => 500

/-- Is `s` an HTTP client-error (4xx) status? -/
def isClientError (s : Nat) : Bool := 400 ≤ s && s < 500

/-- Endpoint `POST /api/voice/enroll` (src/server.js lines 112-119): the multer
middleware runs first; the handler then reads `req.file.filename`, which
throws a TypeError when no file was attached. -/
def voiceEnrollHandler (audio : Bool) (student_id ty : Option JSStr)
    (now : Nat) (dir : Option (List JSStr)) :
    Option (List JSStr) × VoiceResult :=
  let res := uploadSingle audio student_id ty now dir
  match res.2 with
  | some fn => (res.1, .ok "Voice enrolled and saved" fn)
  | none => (res.1, .thrown "TypeError: Cannot read properties of undefined")

/-- Endpoint `POST /api/voice/check` (src/server.js lines 124-131): identical to
enroll except for the success message. -/
def voiceCheckHandler (audio : Bool) (student_id ty : Option JSStr)
    (now : Nat) (dir : Option (List JSStr)) :
    Option (List JSStr) × VoiceResult :=
  let res := uploadSingle audio student_id ty now dir
  match res.2 with
  | some fn => (res.1, .ok "Voice sample saved for review" fn)
  | none => (res.1, .thrown "TypeError: Cannot read properties of undefined")

/-- JS `String.prototype.split` with a one-character separator: keeps
empty segments, `[""]` on the empty string. -/
def splitChar (sep : Char) : JSStr → List JSStr
  | [] => [[]]
  | c :: cs =>
    let r := splitChar sep cs
    if c = sep then [] :: r else (c :: r.headD []) :: r.tail

/-- JS `String.prototype.replace` with a non-empty string pattern:
replaces the first occurrence only (here always `'.webm' → ''`). -/
def replaceFirst (pat rep : JSStr) : JSStr → JSStr
  | [] => []
  | c :: cs =>
    if pat.isPrefixOf (c :: cs) then rep ++ (c :: cs).drop pat.length
    else c :: replaceFirst pat rep cs

/-- JS `Number(s)` restricted to the strings this system generates:
a non-empty all-decimal-digit string parses to its value, anything else
is treated as NaN (`none`). (The system's own timestamps are produced by
`Date.now()` and are plain digit strings.) -/
def jsNumberNat (s : JSStr) : Option Nat :=
  if s ≠ [] ∧ s.all (·.isDigit) then
    some (s.foldl (fun acc c => 10 * acc + (c.toNat - 48)) 0)
  else none

/-- JS `new Date(n)` is a valid date iff |n| ≤ 8.64e15 milliseconds;
`toISOString()` on an invalid date throws a RangeError. -/
def validDateMillis (n : Nat) : Bool := n ≤ 8640000000000000

/-- Expression `f.replace('.webm', '').split('_')` (src/server.js line 146). -/
def voiceParts (f : JSStr) : List JSStr :=
  splitChar '_' (replaceFirst ".webm".data [] f)

/-- One element of the `GET /api/voices` response (lines 151-157);
`timestamp` is the parsed epoch milliseconds, `none` rendering as JSON
`null`. -/
structure VoiceDescriptor where
  student_id : JSStr
  type : JSStr
  filename : JSStr
  url : JSStr
  timestamp : Option Nat
deriving DecidableEq, Repr

/-- Parsing one filename in the listing (src/server.js lines 144-158).
`parts[0] || 'unknown'` and `parts[1] || 'unknown'` default missing or
empty segments; `const ts = parts[2] ? new Date(Number(parts[2])) : null`
yields `null` only when `parts[2]` is absent or empty — an Invalid Date
object is truthy, so `ts ? ts.toISOString() : null` calls `toISOString()`
on it and throws a RangeError for a non-numeric or out-of-range segment. -/
def parseVoiceFile (f : JSStr) : Except String VoiceDescriptor :=
  let parts := voiceParts f
  let sid := jsOr parts[0]? "unknown".data
  let ty := jsOr parts[1]? "unknown".data
  let url := "/voices/".data ++ f
  match parts[2]? with
  | none =>
    .ok { student_id := sid, type := ty, filename := f, url := url,
          timestamp := none }
  | some s =>
    if s = [] then
      .ok { student_id := sid, type := ty, filename := f, url := url,
            timestamp := none }
    else
      match jsNumberNat s with
      | some n =>
        if validDateMillis n then
          .ok { student_id := sid, type := ty, filename := f, url := url,
                timestamp := some n }
        else .error "RangeError: Invalid time value"
      | none => .error "RangeError: Invalid time value"

/-- Endpoint `GET /api/voices` (src/server.js lines 136-161): empty listing when
the directory does not exist, otherwise parse every `.webm` file; an
exception thrown for any single file fails the whole listing. -/
def listVoices (dir : Option (List JSStr)) :
    Except String (List VoiceDescriptor) :=
  match dir with
  | none => .ok []
  | some files =>
    (files.filter (fun f => ".webm".data.isSuffixOf f)).mapM parseVoiceFile

/-- The filename pattern `S42_enroll_<digits>.webm` from the spec's
concrete enrollment scenario. -/
def matchesEnrollPattern (f : JSStr) : Prop :=
  ∃ d : JSStr, d ≠ [] ∧ d.all (·.isDigit) = true ∧
    f = "S42_enroll_".data ++ d ++ ".webm".data

/-! Helper lemmas about the character-level filename operations. -/

theorem splitChar_no_sep {sep : Char} {a : JSStr} (h : sep ∉ a) :
    splitChar sep a = [a] := by
  induction a with
  | nil => rfl
  | cons c cs ih =>
    simp only [List.mem_cons, not_or] at h
    have hc : ¬ (c = sep) := fun hh => h.1 hh.symm
    simp [splitChar, hc, ih h.2]

theorem splitChar_append {sep : Char} {a : JSStr} (rest : JSStr)
    (h : sep ∉ a) :
    splitChar sep (a ++ sep :: rest) = a :: splitChar sep rest := by
  induction a with
  | nil => simp [splitChar]
  | cons c cs ih =>
    simp only [List.mem_cons, not_or] at h
    have hc : ¬ (c = sep) := fun hh => h.1 hh.symm
    simp [splitChar, hc, ih h.2]

theorem replaceFirst_append {pt rep : JSStr} {s : JSStr} (h : '.' ∉ s) :
    replaceFirst ('.' :: pt) rep (s ++ '.' :: pt) = s ++ rep := by
  induction s with
  | nil => simp [replaceFirst, List.isPrefixOf_iff_prefix, List.drop_length]
  | cons c cs ih =>
    simp only [List.mem_cons, not_or] at h
    have hb : (('.' : Char) == c) = false := beq_eq_false_iff_ne.mpr h.1
    simp [replaceFirst, List.isPrefixOf, hb, ih h.2]

theorem digitChar_isDigit {d : Nat} (h : d < 10) :
    (Nat.digitChar d).isDigit = true := by
  interval_cases d <;> decide

theorem digitChar_toNat {d : Nat} (h : d < 10) :
    (Nat.digitChar d).toNat = 48 + d := by
  interval_cases d <;> decide

theorem natCharsAux_isDigit :
    ∀ fuel n : Nat, ∀ c ∈ natCharsAux fuel n, c.isDigit = true := by
  intro fuel
  induction fuel with
  | zero => intro n c hc; simp [natCharsAux] at hc
  | succ f ih =>
    intro n c hc
    match n with
    | 0 => simp [natCharsAux] at hc
    | m + 1 =>
      simp only [natCharsAux, List.mem_append, List.mem_singleton] at hc
      rcases hc with hc | hc
      · exact ih _ _ hc
      · subst hc; exact digitChar_isDigit (Nat.mod_lt _ (by norm_num))

theorem natChars_isDigit {n : Nat} {c : Char} (hc : c ∈ natChars n) :
    c.isDigit = true := by
  unfold natChars at hc
  split at hc
  · simp at hc; subst hc; decide
  · exact natCharsAux_isDigit _ _ _ hc

theorem natChars_ne_nil (n : Nat) : natChars n ≠ [] := by
  unfold natChars
  split
  · simp
  · match n, ‹n ≠ 0› with
    | m + 1, _ => simp [natCharsAux]

theorem underscore_not_mem_natChars (n : Nat) : '_' ∉ natChars n :=
  fun hm => absurd (natChars_isDigit hm) (by decide)

theorem dot_not_mem_natChars (n : Nat) : '.' ∉ natChars n :=
  fun hm => absurd (natChars_isDigit hm) (by decide)

theorem natCharsAux_foldl :
    ∀ fuel n : Nat, n ≤ fuel → ∀ a : Nat,
      (natCharsAux fuel n).foldl (fun acc c => 10 * acc + (c.toNat - 48)) a
        = a * 10 ^ (natCharsAux fuel n).length + n := by
  intro fuel
  induction fuel with
  | zero =>
    intro n hn a
    interval_cases n
    simp [natCharsAux]
  | succ f ih =>
    intro n hn a
    match n with
    | 0 => simp [natCharsAux]
    | m + 1 =>
      have hdiv : (m + 1) / 10 ≤ f := by
        have := Nat.div_lt_self (Nat.succ_pos m) (by norm_num : 1 < 10)
        omega
      simp only [natCharsAux, List.foldl_append, List.foldl_cons,
        List.foldl_nil, List.length_append, List.length_cons,
        List.length_nil]
      rw [ih _ hdiv a, digitChar_toNat (Nat.mod_lt _ (by norm_num)),
        pow_succ, ← mul_assoc]
      have hdm := Nat.div_add_mod (m + 1) 10
      omega

theorem jsNumberNat_natChars (n : Nat) : jsNumberNat (natChars n) = some n := by
  match n with
  | 0 => decide
  | m + 1 =>
    have hne : natChars (m + 1) ≠ [] := natChars_ne_nil _
    have hall : (natChars (m + 1)).all (·.isDigit) = true :=
      List.all_eq_true.mpr fun c hc => natChars_isDigit hc
    unfold jsNumberNat
    rw [if_pos ⟨hne, hall⟩]
    have : natChars (m + 1) = natCharsAux (m + 1) (m + 1) := by
      unfold natChars; rw [if_neg (by omega)]
    rw [this, natCharsAux_foldl (m + 1) (m + 1) (le_refl _) 0]
    simp

theorem voiceParts_three {a b : JSStr} (ts : Nat)
    (ha1 : '_' ∉ a) (ha2 : '.' ∉ a) (hb1 : '_' ∉ b) (hb2 : '.' ∉ b) :
    voiceParts (a ++ ['_'] ++ b ++ ['_'] ++ natChars ts ++ ".webm".data)
      = [a, b, natChars ts] := by
  have hnodot : '.' ∉ (a ++ ['_'] ++ b ++ ['_'] ++ natChars ts) := by
    intro hm
    simp only [List.mem_append, List.mem_singleton] at hm
    rcases hm with ((((h | h) | h) | h) | h)
    · exact ha2 h
    · exact absurd h (by decide)
    · exact hb2 h
    · exact absurd h (by decide)
    · exact dot_not_mem_natChars ts h
  unfold voiceParts
  rw [show (".webm".data : JSStr) = '.' :: "webm".data from rfl,
    replaceFirst_append hnodot, List.append_nil]
  simp only [List.append_assoc, List.singleton_append, List.cons_append,
    List.nil_append]
  rw [splitChar_append _ ha1, splitChar_append _ hb1,
    splitChar_no_sep (underscore_not_mem_natChars ts)]

theorem voiceParts_four {a b c : JSStr} (ts : Nat)
    (ha1 : '_' ∉ a) (ha2 : '.' ∉ a) (hb1 : '_' ∉ b) (hb2 : '.' ∉ b)
    (hc1 : '_' ∉ c) (hc2 : '.' ∉ c) :
    voiceParts (a ++ ['_'] ++ b ++ ['_'] ++ c ++ ['_'] ++ natChars ts
        ++ ".webm".data)
      = [a, b, c, natChars ts] := by
  have hnodot : '.' ∉ (a ++ ['_'] ++ b ++ ['_'] ++ c ++ ['_'] ++ natChars ts) := by
    intro hm
    simp only [List.mem_append, List.mem_singleton] at hm
    rcases hm with ((((((h | h) | h) | h) | h) | h) | h)
    · exact ha2 h
    · exact absurd h (by decide)
    · exact hb2 h
    · exact absurd h (by decide)
    · exact hc2 h
    · exact absurd h (by decide)
    · exact dot_not_mem_natChars ts h
  unfold voiceParts
  rw [show (".webm".data : JSStr) = '.' :: "webm".data from rfl,
    replaceFirst_append hnodot, List.append_nil]
  simp only [List.append_assoc, List.singleton_append, List.cons_append,
    List.nil_append]
  rw [splitChar_append _ ha1, splitChar_append _ hb1, splitChar_append _ hc1,
    splitChar_no_sep (underscore_not_mem_natChars ts)]

theorem webm_suffix (x : JSStr) :
    ".webm".data.isSuffixOf (x ++ ".webm".data) = true := by
  simp

theorem listVoices_single_ok {fn : JSStr} {d : VoiceDescriptor}
    (hsuf : ".webm".data.isSuffixOf fn = true)
    (hp : parseVoiceFile fn = .ok d) :
    listVoices (some [fn]) = .ok [d] := by
  simp only [listVoices]
  rw [show List.filter (fun f => ".webm".data.isSuffixOf f) [fn] = [fn] from by
        simp [List.filter, hsuf],
    List.mapM_cons, List.mapM_nil, hp]
  rfl

theorem listVoices_single_err {fn : JSStr} {e : String}
    (hsuf : ".webm".data.isSuffixOf fn = true)
    (hp : parseVoiceFile fn = .error e) :
    listVoices (some [fn]) = .error e := by
  simp only [listVoices]
  rw [show List.filter (fun f => ".webm".data.isSuffixOf f) [fn] = [fn] from by
        simp [List.filter, hsuf],
    List.mapM_cons, List.mapM_nil, hp]
  rfl

theorem parseVoiceFile_three {a b : JSStr} (ts : Nat)
    (ha1 : '_' ∉ a) (ha2 : '.' ∉ a) (hb1 : '_' ∉ b) (hb2 : '.' ∉ b)
    (hane : a ≠ []) (hbne : b ≠ []) (hts : validDateMillis ts = true) :
    parseVoiceFile (a ++ ['_'] ++ b ++ ['_'] ++ natChars ts ++ ".webm".data)
      = .ok { student_id := a, type := b,
              filename := a ++ ['_'] ++ b ++ ['_'] ++ natChars ts ++ ".webm".data,
              url := "/voices/".data
                ++ (a ++ ['_'] ++ b ++ ['_'] ++ natChars ts ++ ".webm".data),
              timestamp := some ts } := by
  unfold parseVoiceFile
  rw [voiceParts_three ts ha1 ha2 hb1 hb2]
  simp only [List.getElem?_cons_zero, List.getElem?_cons_succ]
  rw [show jsOr (some a) "unknown".data = a from by simp [jsOr, hane],
    show jsOr (some b) "unknown".data = b from by simp [jsOr, hbne]]
  rw [if_neg (natChars_ne_nil ts), jsNumberNat_natChars]
  simp [hts]

theorem ledgerAppend_foldl (rs : List AttendanceRecord) :
    ∀ st : LedgerState, st.disk = some st.mem →
      (rs.foldl (fun s r => ledgerAppend r s) st).mem = st.mem ++ rs ∧
      (rs.foldl (fun s r => ledgerAppend r s) st).disk
        = some ((rs.foldl (fun s r => ledgerAppend r s) st).mem) := by
  induction rs with
  | nil => intro st h; exact ⟨(List.append_nil _).symm, h⟩
  | cons r rs ih =>
    intro st h
    simp only [List.foldl_cons]
    have h2 := ih (ledgerAppend r st) (by simp [ledgerAppend])
    refine ⟨?_, h2.2⟩
    rw [h2.1]
    simp [ledgerAppend]

/-- C1: for every ingest request to POST /api/device/event carrying the
correct x-device-key and a non-empty events list, after the handler
succeeds the Ledger's listAll() returns exactly one more record than
before, whose device_id, token, method and pin equal the corresponding
fields of the request's first submitted event, and whose timestamp is the
server time assigned during the handler's execution. -/
theorem ingest_appends_matching_record
    (apiKey key : Option String) (body : DeviceBody) (now : String)
    (st : LedgerState) (e : DeviceEvent) (rest : List DeviceEvent)
    (hkey : key = apiKey) (hev : body.events = e :: rest) :
    (deviceEventHandler apiKey key body now st).2 = .ok ∧
    listAll (deviceEventHandler apiKey key body now st).1
      = listAll st ++ [mkRecord now body.device_id e] ∧
    (listAll (deviceEventHandler apiKey key body now st).1).length
      = (listAll st).length + 1 ∧
    (mkRecord now body.device_id e).timestamp = now ∧
    (mkRecord now body.device_id e).device_id = body.device_id ∧
    (mkRecord now body.device_id e).token = e.token_or_pin ∧
    (mkRecord now body.device_id e).method = e.method ∧
    (mkRecord now body.device_id e).pin
      = (match e.extras with
         | some ex => ex.entered_pin
         | none => some "") := by
  subst hkey
  refine ⟨by simp [deviceEventHandler, hev],
    by simp [deviceEventHandler, hev, ledgerAppend, listAll],
    by simp [deviceEventHandler, hev, ledgerAppend, listAll],
    rfl, rfl, rfl, rfl, rfl⟩

theorem ingest_appends_matching_record_witness :
    (deviceEventHandler (some "k") (some "k")
        { device_id := some "D1",
          events := [{ token_or_pin := some "ABC123", method := some "qr",
                       extras := none }] }
        "T0" (initExcel none)).2 = .ok ∧
    listAll (deviceEventHandler (some "k") (some "k")
        { device_id := some "D1",
          events := [{ token_or_pin := some "ABC123", method := some "qr",
                       extras := none }] }
        "T0" (initExcel none)).1
      = listAll (initExcel none)
        ++ [mkRecord "T0" (some "D1")
              { token_or_pin := some "ABC123", method := some "qr",
                extras := none }] :=
  ⟨(ingest_appends_matching_record _ _ _ _ _ _ _ rfl rfl).1,
   (ingest_appends_matching_record _ _ _ _ _ _ _ rfl rfl).2.1⟩

/-- C2: for every ingest request whose x-device-key header is missing or
does not equal the configured device key, the response is a 401 and the
Ledger is unchanged in memory and on disk (no record appended, no
persist). -/
theorem ingest_bad_key_unauthorized
    (k : String) (apiKey key : Option String) (body : DeviceBody)
    (now : String) (st : LedgerState)
    (hcfg : apiKey = some k) (hkey : key = none ∨ key ≠ apiKey) :
    deviceEventHandler apiKey key body now st = (st, .unauthorized) ∧
    deviceStatus (deviceEventHandler apiKey key body now st).2 = 401 := by
  have hne : key ≠ apiKey := by
    rcases hkey with h | h
    · subst h; subst hcfg; simp
    · exact h
  refine ⟨by simp [deviceEventHandler, hne], ?_⟩
  simp [deviceEventHandler, hne, deviceStatus]

theorem ingest_bad_key_unauthorized_witness :
    (deviceEventHandler (some "secret") (some "wrong")
        { device_id := some "D1", events := [] } "T0" (initExcel none)
      = (initExcel none, .unauthorized)) ∧
    deviceStatus (deviceEventHandler (some "secret") (some "wrong")
        { device_id := some "D1", events := [] } "T0" (initExcel none)).2
      = 401 :=
  ingest_bad_key_unauthorized "secret" _ _ _ _ _ rfl (Or.inr (by decide))

/-- C5: for every ingest request with a correct device key whose events
list contains two or more events, exactly one record, built from the
first event only, is appended to the Ledger; the result does not depend
on the subsequent events in the batch. -/
theorem ingest_first_event_only
    (apiKey key : Option String) (did : Option String) (now : String)
    (st : LedgerState) (e : DeviceEvent) (rest : List DeviceEvent)
    (hkey : key = apiKey) (_hrest : rest ≠ []) :
    deviceEventHandler apiKey key { device_id := did, events := e :: rest }
        now st
      = (ledgerAppend (mkRecord now did e) st, .ok) ∧
    (listAll (deviceEventHandler apiKey key
        { device_id := did, events := e :: rest } now st).1).length
      = (listAll st).length + 1 := by
  subst hkey
  refine ⟨by simp [deviceEventHandler], ?_⟩
  simp [deviceEventHandler, ledgerAppend, listAll]

theorem ingest_first_event_only_witness :
    (deviceEventHandler (some "k") (some "k")
        { device_id := some "D1",
          events := [{ token_or_pin := some "T1", method := some "qr",
                       extras := none },
                     { token_or_pin := some "T2", method := some "pin",
                       extras := none }] }
        "T0" (initExcel none)
      = (ledgerAppend
          (mkRecord "T0" (some "D1")
            { token_or_pin := some "T1", method := some "qr",
              extras := none })
          (initExcel none), .ok)) ∧
    (listAll (deviceEventHandler (some "k") (some "k")
        { device_id := some "D1",
          events := [{ token_or_pin := some "T1", method := some "qr",
                       extras := none },
                     { token_or_pin := some "T2", method := some "pin",
                       extras := none }] }
        "T0" (initExcel none)).1).length
      = (listAll (initExcel none)).length + 1 :=
  ingest_first_event_only _ _ _ _ _ _
    [{ token_or_pin := some "T2", method := some "pin", extras := none }]
    rfl (by decide)

/-- C9: for every ingest request with a correct device key and an empty
events list, the handler throws (reading a property of `undefined`)
before constructing or appending any record, so the Ledger is unchanged
in memory and on disk; the non-empty-batch precondition is unguarded in
code, surfacing as an uncaught TypeError (500) rather than a checked
validation response. -/
theorem ingest_empty_events_throws
    (apiKey key : Option String) (did : Option String) (now : String)
    (st : LedgerState) (hkey : key = apiKey) :
    deviceEventHandler apiKey key { device_id := did, events := [] } now st
      = (st, .thrown "TypeError: Cannot read properties of undefined") ∧
    deviceStatus (deviceEventHandler apiKey key
        { device_id := did, events := [] } now st).2 = 500 := by
  subst hkey
  refine ⟨by simp [deviceEventHandler], ?_⟩
  simp [deviceEventHandler, deviceStatus]

theorem ingest_empty_events_throws_witness :
    (deviceEventHandler (some "k") (some "k")
        { device_id := some "D1", events := [] } "T0" (initExcel none)
      = (initExcel none,
         .thrown "TypeError: Cannot read properties of undefined")) ∧
    deviceStatus (deviceEventHandler (some "k") (some "k")
        { device_id := some "D1", events := [] } "T0" (initExcel none)).2
      = 500 :=
  ingest_empty_events_throws _ _ _ _ _ rfl

/-- C6: appending N records to an in-sync Ledger and then re-initializing
the store from durable storage (as at startup) yields the same records,
with the same field values, in the same insertion order. -/
theorem ledger_reload_roundtrip (st : LedgerState)
    (rs : List AttendanceRecord) (h : st.disk = some st.mem) :
    listAll (initExcel (rs.foldl (fun s r => ledgerAppend r s) st).disk)
      = listAll (rs.foldl (fun s r => ledgerAppend r s) st) ∧
    listAll (rs.foldl (fun s r => ledgerAppend r s) st)
      = listAll st ++ rs := by
  have h2 := ledgerAppend_foldl rs st h
  constructor
  · rw [h2.2]
    rfl
  · exact h2.1

theorem ledger_reload_roundtrip_witness :
    ((initExcel none).disk = some (initExcel none).mem) ∧
    (listAll (initExcel
        ([{ timestamp := "T1", device_id := some "D1", token := some "A",
            pin := some "", method := some "qr" },
          { timestamp := "T2", device_id := some "D1", token := some "B",
            pin := none, method := some "pin" }].foldl
          (fun s r => ledgerAppend r s) (initExcel none)).disk)
      = listAll
          ([{ timestamp := "T1", device_id := some "D1", token := some "A",
              pin := some "", method := some "qr" },
            { timestamp := "T2", device_id := some "D1", token := some "B",
              pin := none, method := some "pin" }].foldl
            (fun s r => ledgerAppend r s) (initExcel none))) :=
  ⟨rfl, (ledger_reload_roundtrip (initExcel none) _ rfl).1⟩

/-- C7 counterexample: with a correct key and a first event whose
`extras` object is present but carries no `entered_pin`, the appended
record's pin is undefined (`none`), not the empty string, refuting "pin
is a string: empty when not provided, never absent or undefined". -/
theorem ingest_pin_undefined_counterexample :
    listAll (deviceEventHandler (some "k") (some "k")
        { device_id := some "D1",
          events := [{ token_or_pin := some "ABC123", method := some "qr",
                       extras := some { entered_pin := none } }] }
        "T0" (initExcel none)).1
      = [{ timestamp := "T0", device_id := some "D1", token := some "ABC123",
           pin := none, method := some "qr" }] ∧
    ¬ ({ timestamp := "T0", device_id := some "D1", token := some "ABC123",
         pin := none, method := some "qr" } : AttendanceRecord).pin
        = some "" := by
  refine ⟨rfl, by decide⟩

/-- C7 (amended): the appended record's pin field is the empty string
exactly when the first event's `extras` object is absent; when `extras`
is present, pin is its `entered_pin` value, which is undefined (absent),
not the empty string, when no entered PIN was provided there. -/
theorem ingest_pin_rule
    (apiKey key : Option String) (body : DeviceBody) (now : String)
    (st : LedgerState) (e : DeviceEvent) (rest : List DeviceEvent)
    (hkey : key = apiKey) (hev : body.events = e :: rest) :
    listAll (deviceEventHandler apiKey key body now st).1
      = listAll st ++ [mkRecord now body.device_id e] ∧
    (e.extras = none → (mkRecord now body.device_id e).pin = some "") ∧
    (∀ ex, e.extras = some ex →
      (mkRecord now body.device_id e).pin = ex.entered_pin) := by
  subst hkey
  refine ⟨by simp [deviceEventHandler, hev, ledgerAppend, listAll], ?_, ?_⟩
  · intro h; simp [mkRecord, h]
  · intro ex h; simp [mkRecord, h]

theorem ingest_pin_rule_witness :
    (listAll (deviceEventHandler (some "k") (some "k")
        { device_id := some "D1",
          events := [{ token_or_pin := some "ABC123", method := some "qr",
                       extras := none }] }
        "T0" (initExcel none)).1
      = listAll (initExcel none)
        ++ [mkRecord "T0" (some "D1")
              { token_or_pin := some "ABC123", method := some "qr",
                extras := none }]) ∧
    (mkRecord "T0" (some "D1")
        { token_or_pin := some "ABC123", method := some "qr",
          extras := none }).pin = some "" :=
  ⟨(ingest_pin_rule _ _ _ _ _ _ _ rfl rfl).1,
   (ingest_pin_rule (some "k") (some "k")
      { device_id := some "D1",
        events := [{ token_or_pin := some "ABC123", method := some "qr",
                     extras := none }] }
      "T0" (initExcel none)
      { token_or_pin := some "ABC123", method := some "qr", extras := none }
      [] rfl rfl).2.1 rfl⟩

/-- C3 counterexample: the file `a_b_xyz.webm` has a non-numeric third
underscore segment; `Number('xyz')` is NaN, the Invalid Date object is
truthy, and `toISOString()` throws, so GET /api/voices fails with a
RangeError instead of returning a null-timestamp descriptor. -/
theorem voices_nonnumeric_segment_counterexample :
    listVoices (some ["a_b_xyz.webm".data])
      = .error "RangeError: Invalid time value" := rfl

/-- C3 (amended): a filename whose third underscore segment is absent (or
empty) yields a descriptor with a null timestamp and no error; but a
non-empty, non-numeric third segment makes the timestamp conversion
throw a RangeError, failing the whole listing. -/
theorem voices_null_ts_or_throw (f : JSStr) :
    ((voiceParts f)[2]? = none →
      ∃ d, parseVoiceFile f = .ok d ∧ d.timestamp = none) ∧
    (∀ s, (voiceParts f)[2]? = some s → s ≠ [] → jsNumberNat s = none →
      ".webm".data.isSuffixOf f = true →
      listVoices (some [f]) = .error "RangeError: Invalid time value") := by
  constructor
  · intro h
    refine ⟨{ student_id := jsOr (voiceParts f)[0]? "unknown".data,
              type := jsOr (voiceParts f)[1]? "unknown".data,
              filename := f, url := "/voices/".data ++ f,
              timestamp := none }, ?_, rfl⟩
    simp only [parseVoiceFile, h]
  · intro s hs hne hnum hsuf
    apply listVoices_single_err hsuf
    simp [parseVoiceFile, hs, hne, hnum]

theorem voices_null_ts_or_throw_witness :
    (∃ d, parseVoiceFile "a_b.webm".data = .ok d ∧ d.timestamp = none) ∧
    listVoices (some ["p_q_zz.webm".data])
      = .error "RangeError: Invalid time value" :=
  ⟨(voices_null_ts_or_throw "a_b.webm".data).1 (by decide),
   (voices_null_ts_or_throw "p_q_zz.webm".data).2 "zz".data
     (by decide) (by decide) (by decide) (by decide)⟩

/-- C8 counterexample: an enroll request with no audio blob attached
stores nothing, but fails via an uncaught TypeError, which Express
surfaces as a 500 server error, not a client-error BadRequest. -/
theorem voice_no_audio_counterexample :
    voiceEnrollHandler false (some "S42".data) none 0 none
      = (none, .thrown "TypeError: Cannot read properties of undefined") ∧
    voiceStatus (voiceEnrollHandler false (some "S42".data) none 0 none).2
      = 500 ∧
    isClientError
        (voiceStatus
          (voiceEnrollHandler false (some "S42".data) none 0 none).2)
      = false :=
  ⟨rfl, rfl, rfl⟩

/-- C8 (amended): with no audio blob attached, both upload endpoints
store nothing and fail rather than succeed, but via an uncaught
TypeError surfaced as a 500 server error, not a client-error
BadRequest. -/
theorem voice_no_audio_throws_500 (sid ty : Option JSStr) (now : Nat)
    (dir : Option (List JSStr)) :
    voiceEnrollHandler false sid ty now dir
      = (dir, .thrown "TypeError: Cannot read properties of undefined") ∧
    voiceCheckHandler false sid ty now dir
      = (dir, .thrown "TypeError: Cannot read properties of undefined") ∧
    voiceStatus (voiceEnrollHandler false sid ty now dir).2 = 500 ∧
    isClientError (voiceStatus (voiceEnrollHandler false sid ty now dir).2)
      = false :=
  ⟨rfl, rfl, rfl, rfl⟩

/-- C10 counterexample: an enroll upload with student_id "A_B" stores
`A_B_enroll_123.webm`, but the subsequent listing does not report a
truncated student_id and a shifted type: it throws a RangeError (the
shifted third segment "enroll" is non-numeric), so the listing reports
nothing at all. -/
theorem voices_underscore_id_counterexample :
    voiceEnrollHandler true (some "A_B".data) (some "enroll".data) 123 none
      = (some ["A_B_enroll_123.webm".data],
         .ok "Voice enrolled and saved" "A_B_enroll_123.webm".data) ∧
    listVoices (some ["A_B_enroll_123.webm".data])
      = .error "RangeError: Invalid time value" :=
  ⟨rfl, rfl⟩

/-- C10 (amended): the listing splits each filename on every underscore
and uses only the first three segments, so for a sample whose student_id
contains an underscore the id's first chunk lands in the student_id slot
and its second chunk in the type slot (metadata is not faithfully
recoverable); the real type tag is shifted into the timestamp position,
and being non-numeric it makes the timestamp conversion throw, so the
listing fails with a RangeError instead of reporting the mangled
descriptor. -/
theorem voices_underscore_id_mangles (a b : JSStr) (ts : Nat)
    (ha1 : '_' ∉ a) (ha2 : '.' ∉ a) (hb1 : '_' ∉ b) (hb2 : '.' ∉ b) :
    voiceParts (storageFilename (some (a ++ '_' :: b))
        (some "enroll".data) ts)
      = [a, b, "enroll".data, natChars ts] ∧
    listVoices (some [storageFilename (some (a ++ '_' :: b))
        (some "enroll".data) ts])
      = .error "RangeError: Invalid time value" := by
  have hne : (a ++ '_' :: b) ≠ [] := by simp
  have hfn : storageFilename (some (a ++ '_' :: b)) (some "enroll".data) ts
      = a ++ ['_'] ++ b ++ ['_'] ++ "enroll".data ++ ['_'] ++ natChars ts
        ++ ".webm".data := by
    simp [storageFilename, jsOr, hne, List.append_assoc]
  have hparts := voiceParts_four (a := a) (b := b) (c := "enroll".data) ts
    ha1 ha2 hb1 hb2 (by decide) (by decide)
  have hparse : parseVoiceFile (a ++ ['_'] ++ b ++ ['_'] ++ "enroll".data
        ++ ['_'] ++ natChars ts ++ ".webm".data)
      = .error "RangeError: Invalid time value" := by
    have h2 : jsNumberNat "enroll".data = none := by decide
    have h3 : ("enroll".data : JSStr) ≠ [] := by decide
    simp only [parseVoiceFile]
    rw [hparts]
    simp [h2, h3]
  constructor
  · rw [hfn]; exact hparts
  · rw [hfn]
    exact listVoices_single_err (webm_suffix _) hparse

theorem voices_underscore_id_mangles_witness :
    voiceParts (storageFilename (some ("A".data ++ '_' :: "B".data))
        (some "enroll".data) 9)
      = ["A".data, "B".data, "enroll".data, natChars 9] ∧
    listVoices (some [storageFilename (some ("A".data ++ '_' :: "B".data))
        (some "enroll".data) 9])
      = .error "RangeError: Invalid time value" :=
  voices_underscore_id_mangles "A".data "B".data 9
    (by decide) (by decide) (by decide) (by decide)

/-- C4 counterexample: POST /api/voice/enroll with student_id "S42", an
attached audio file, and no `type` form field (at epoch millisecond 123)
stores and returns `S42_check_123.webm`: the type segment defaults to
"check" because it comes from the request body, it is not fixed to
"enroll" by the endpoint; the filename does not match
`S42_enroll_<digits>.webm` and the subsequent listing reports type
"check". -/
theorem enroll_default_type_counterexample :
    voiceEnrollHandler true (some "S42".data) none 123 none
      = (some ["S42_check_123.webm".data],
         .ok "Voice enrolled and saved" "S42_check_123.webm".data) ∧
    ¬ matchesEnrollPattern "S42_check_123.webm".data ∧
    listVoices (some ["S42_check_123.webm".data])
      = .ok [{ student_id := "S42".data, type := "check".data,
               filename := "S42_check_123.webm".data,
               url := "/voices/S42_check_123.webm".data,
               timestamp := some 123 }] := by
  refine ⟨rfl, ?_, rfl⟩
  rintro ⟨d, _, _, hf⟩
  rw [List.append_assoc] at hf
  have h11 := congrArg (List.take 11) hf
  rw [List.take_left' (by decide : ("S42_enroll_".data : JSStr).length = 11)]
    at h11
  exact absurd h11 (by decide)

/-- C4 (amended): the type segment of the stored filename comes from the
request's `type` form field, defaulting to "check" rather than being
fixed per endpoint; when the enroll request supplies type "enroll" along
with student_id "S42" and an audio file, the returned filename matches
`S42_enroll_<digits>.webm` and the subsequent GET /api/voices includes a
descriptor with student_id "S42" and type "enroll" for that file. -/
theorem enroll_with_type_field_pattern (ts : Nat)
    (hts : validDateMillis ts = true) :
    ∃ fn,
      voiceEnrollHandler true (some "S42".data) (some "enroll".data) ts none
        = (some [fn], .ok "Voice enrolled and saved" fn) ∧
      matchesEnrollPattern fn ∧
      listVoices (some [fn])
        = .ok [{ student_id := "S42".data, type := "enroll".data,
                 filename := fn, url := "/voices/".data ++ fn,
                 timestamp := some ts }] := by
  refine ⟨storageFilename (some "S42".data) (some "enroll".data) ts,
    rfl, ?_, ?_⟩
  · refine ⟨natChars ts, natChars_ne_nil ts,
      List.all_eq_true.mpr (fun c hc => natChars_isDigit hc), ?_⟩
    simp only [storageFilename,
      show jsOr (some "S42".data) "unknown".data = "S42".data from rfl,
      show jsOr (some "enroll".data) "check".data = "enroll".data from rfl,
      show ("S42".data : JSStr) = 'S' :: '4' :: '2' :: [] from rfl,
      show ("S42_enroll_".data : JSStr)
          = 'S' :: '4' :: '2' :: '_' :: 'e' :: 'n' :: 'r' :: 'o' :: 'l'
            :: 'l' :: '_' :: [] from rfl,
      List.cons_append, List.nil_append, List.append_assoc,
      List.singleton_append]
  · have hfn : storageFilename (some "S42".data) (some "enroll".data) ts
        = "S42".data ++ ['_'] ++ "enroll".data ++ ['_'] ++ natChars ts
          ++ ".webm".data := by
      simp only [storageFilename,
        show jsOr (some "S42".data) "unknown".data = "S42".data from rfl,
        show jsOr (some "enroll".data) "check".data = "enroll".data from rfl]
    rw [hfn]
    exact listVoices_single_ok (webm_suffix _)
      (parseVoiceFile_three ts (by decide) (by decide) (by decide)
        (by decide) (by decide) (by decide) hts)

theorem enroll_with_type_field_pattern_witness :
    validDateMillis 123 = true ∧
    (∃ fn,
      voiceEnrollHandler true (some "S42".data) (some "enroll".data) 123 none
        = (some [fn], .ok "Voice enrolled and saved" fn) ∧
      matchesEnrollPattern fn ∧
      listVoices (some [fn])
        = .ok [{ student_id := "S42".data, type := "enroll".data,
                 filename := fn, url := "/voices/".data ++ fn,
                 timestamp := some 123 }]) :=
  ⟨by decide, enroll_with_type_field_pattern 123 (by decide)⟩
